import Mathlib

/-!
Verification development for the OCR-ERL pseudocode front end (tokenizer,
lexer, recursive-descent parser) and the code editor's run-button logic.

The lexical and syntactic front end (tokenizer, lexer, parser, AST node
model) is modelled from the specification: the repository ships only the
parser's unit tests and the editor, so every definition in the `ERL`
namespace is a faithful shallow embedding of the behaviour the
specification describes (token classification, blank-line skipping,
statement dispatch, operator precedence, fixed diagnostic messages).
The editor model in the `Editor` namespace is embedded directly from
`code_editor.py`.
-/

namespace ERL

set_option maxHeartbeats 1600000 in
/-- Modelled from the spec: token kinds of the tokenizer (identifier,
integer/real/string/boolean literals, each keyword, each operator and
punctuation symbol).  The parser, lexer and tests are driven by this
fixed enumeration. -/
inductive Tok where
  | ident (s : String)
  | intLit (n : Nat)
  | numLit (ip fp : String)
  | strLit (s : String)
  | boolLit (b : Bool)
  | kGlobal | kArray
  | kIf | kThen | kElseif | kElse | kEndif
  | kFor | kTo | kNext
  | kWhile | kEndwhile
  | kDo | kUntil
  | kSwitch | kCase | kDefault | kEndswitch
  | kFunction | kEndfunction | kProcedure | kEndprocedure | kReturn
  | kBreak | kContinue
  | kClass | kEndclass | kInherits | kPrivate | kPublic | kNew
  | kPrint
  | kNot | kAnd | kOr | kMod | kDiv
  | kByRef | kByVal
  | plus | minus | star | slash | caret
  | eq | eqeq | neq | lt | gt | le | ge
  | lparen | rparen | lbrack | rbrack | comma | dot | colon
deriving Repr

/-- Total encoding of a token as a tag plus its possible payloads.  (A
derived equality decision procedure for a 63-constructor type elaborates
to one flat matcher over both scrutinees whose application spine is
thousands of nodes deep; deciding equality through this encoding keeps
every term in the development shallow.) -/
def Tok.enc : Tok → Nat × Nat × String × String
  | .ident s => (0, 0, s, "")
  | .intLit n => (1, n, "", "")
  | .numLit a b => (2, 0, a, b)
  | .strLit s => (3, 0, s, "")
  | .boolLit b => (4, cond b 1 0, "", "")
  | .kGlobal => (5, 0, "", "")
  | .kArray => (6, 0, "", "")
  | .kIf => (7, 0, "", "")
  | .kThen => (8, 0, "", "")
  | .kElseif => (9, 0, "", "")
  | .kElse => (10, 0, "", "")
  | .kEndif => (11, 0, "", "")
  | .kFor => (12, 0, "", "")
  | .kTo => (13, 0, "", "")
  | .kNext => (14, 0, "", "")
  | .kWhile => (15, 0, "", "")
  | .kEndwhile => (16, 0, "", "")
  | .kDo => (17, 0, "", "")
  | .kUntil => (18, 0, "", "")
  | .kSwitch => (19, 0, "", "")
  | .kCase => (20, 0, "", "")
  | .kDefault => (21, 0, "", "")
  | .kEndswitch => (22, 0, "", "")
  | .kFunction => (23, 0, "", "")
  | .kEndfunction => (24, 0, "", "")
  | .kProcedure => (25, 0, "", "")
  | .kEndprocedure => (26, 0, "", "")
  | .kReturn => (27, 0, "", "")
  | .kBreak => (28, 0, "", "")
  | .kContinue => (29, 0, "", "")
  | .kClass => (30, 0, "", "")
  | .kEndclass => (31, 0, "", "")
  | .kInherits => (32, 0, "", "")
  | .kPrivate => (33, 0, "", "")
  | .kPublic => (34, 0, "", "")
  | .kNew => (35, 0, "", "")
  | .kPrint => (36, 0, "", "")
  | .kNot => (37, 0, "", "")
  | .kAnd => (38, 0, "", "")
  | .kOr => (39, 0, "", "")
  | .kMod => (40, 0, "", "")
  | .kDiv => (41, 0, "", "")
  | .kByRef => (42, 0, "", "")
  | .kByVal => (43, 0, "", "")
  | .plus => (44, 0, "", "")
  | .minus => (45, 0, "", "")
  | .star => (46, 0, "", "")
  | .slash => (47, 0, "", "")
  | .caret => (48, 0, "", "")
  | .eq => (49, 0, "", "")
  | .eqeq => (50, 0, "", "")
  | .neq => (51, 0, "", "")
  | .lt => (52, 0, "", "")
  | .gt => (53, 0, "", "")
  | .le => (54, 0, "", "")
  | .ge => (55, 0, "", "")
  | .lparen => (56, 0, "", "")
  | .rparen => (57, 0, "", "")
  | .lbrack => (58, 0, "", "")
  | .rbrack => (59, 0, "", "")
  | .comma => (60, 0, "", "")
  | .dot => (61, 0, "", "")
  | .colon => (62, 0, "", "")

/-- Decoding, a retraction of `Tok.enc` (so the encoding is injective). -/
def Tok.dec (x : Nat × Nat × String × String) : Tok :=
  if x.1 = 0 then .ident x.2.2.1
  else if x.1 = 1 then .intLit x.2.1
  else if x.1 = 2 then .numLit x.2.2.1 x.2.2.2
  else if x.1 = 3 then .strLit x.2.2.1
  else if x.1 = 4 then .boolLit (x.2.1 == 1)
  else if x.1 = 5 then .kGlobal
  else if x.1 = 6 then .kArray
  else if x.1 = 7 then .kIf
  else if x.1 = 8 then .kThen
  else if x.1 = 9 then .kElseif
  else if x.1 = 10 then .kElse
  else if x.1 = 11 then .kEndif
  else if x.1 = 12 then .kFor
  else if x.1 = 13 then .kTo
  else if x.1 = 14 then .kNext
  else if x.1 = 15 then .kWhile
  else if x.1 = 16 then .kEndwhile
  else if x.1 = 17 then .kDo
  else if x.1 = 18 then .kUntil
  else if x.1 = 19 then .kSwitch
  else if x.1 = 20 then .kCase
  else if x.1 = 21 then .kDefault
  else if x.1 = 22 then .kEndswitch
  else if x.1 = 23 then .kFunction
  else if x.1 = 24 then .kEndfunction
  else if x.1 = 25 then .kProcedure
  else if x.1 = 26 then .kEndprocedure
  else if x.1 = 27 then .kReturn
  else if x.1 = 28 then .kBreak
  else if x.1 = 29 then .kContinue
  else if x.1 = 30 then .kClass
  else if x.1 = 31 then .kEndclass
  else if x.1 = 32 then .kInherits
  else if x.1 = 33 then .kPrivate
  else if x.1 = 34 then .kPublic
  else if x.1 = 35 then .kNew
  else if x.1 = 36 then .kPrint
  else if x.1 = 37 then .kNot
  else if x.1 = 38 then .kAnd
  else if x.1 = 39 then .kOr
  else if x.1 = 40 then .kMod
  else if x.1 = 41 then .kDiv
  else if x.1 = 42 then .kByRef
  else if x.1 = 43 then .kByVal
  else if x.1 = 44 then .plus
  else if x.1 = 45 then .minus
  else if x.1 = 46 then .star
  else if x.1 = 47 then .slash
  else if x.1 = 48 then .caret
  else if x.1 = 49 then .eq
  else if x.1 = 50 then .eqeq
  else if x.1 = 51 then .neq
  else if x.1 = 52 then .lt
  else if x.1 = 53 then .gt
  else if x.1 = 54 then .le
  else if x.1 = 55 then .ge
  else if x.1 = 56 then .lparen
  else if x.1 = 57 then .rparen
  else if x.1 = 58 then .lbrack
  else if x.1 = 59 then .rbrack
  else if x.1 = 60 then .comma
  else if x.1 = 61 then .dot
  else .colon

set_option maxHeartbeats 1600000 in
instance : DecidableEq Tok := fun a b =>
  if h : Tok.enc a = Tok.enc b then
    isTrue (by
      have hd : ∀ t : Tok, Tok.dec (Tok.enc t) = t := by
        intro t
        cases t <;> first | rfl | (rename_i c; cases c <;> rfl)
      have h2 := congrArg Tok.dec h
      rwa [hd, hd] at h2)
  else isFalse (fun hab => h (by rw [hab]))

/-- Modelled from the spec: the tokenizer's keyword table.  A lexical
fragment that is exactly one of these words is classified as the
corresponding keyword (or boolean-literal) token; any other
identifier-shaped fragment is an identifier. -/
def kwOfString (s : String) : Option Tok :=
  if s = "global" then some .kGlobal
  else if s = "array" then some .kArray
  else if s = "if" then some .kIf
  else if s = "then" then some .kThen
  else if s = "elseif" then some .kElseif
  else if s = "else" then some .kElse
  else if s = "endif" then some .kEndif
  else if s = "for" then some .kFor
  else if s = "to" then some .kTo
  else if s = "next" then some .kNext
  else if s = "while" then some .kWhile
  else if s = "endwhile" then some .kEndwhile
  else if s = "do" then some .kDo
  else if s = "until" then some .kUntil
  else if s = "switch" then some .kSwitch
  else if s = "case" then some .kCase
  else if s = "default" then some .kDefault
  else if s = "endswitch" then some .kEndswitch
  else if s = "function" then some .kFunction
  else if s = "endfunction" then some .kEndfunction
  else if s = "procedure" then some .kProcedure
  else if s = "endprocedure" then some .kEndprocedure
  else if s = "return" then some .kReturn
  else if s = "break" then some .kBreak
  else if s = "continue" then some .kContinue
  else if s = "class" then some .kClass
  else if s = "endclass" then some .kEndclass
  else if s = "inherits" then some .kInherits
  else if s = "private" then some .kPrivate
  else if s = "public" then some .kPublic
  else if s = "new" then some .kNew
  else if s = "print" then some .kPrint
  else if s = "NOT" then some .kNot
  else if s = "AND" then some .kAnd
  else if s = "OR" then some .kOr
  else if s = "MOD" then some .kMod
  else if s = "DIV" then some .kDiv
  else if s = "byRef" then some .kByRef
  else if s = "byVal" then some .kByVal
  else if s = "true" then some (.boolLit true)
  else if s = "false" then some (.boolLit false)
  else none

def isIdentStart (c : Char) : Bool := c.isAlpha || c = '_'

def isIdentCh (c : Char) : Bool := c.isAlphanum || c = '_'

/-- Splits a character list at the first character failing `p`. -/
def takeWhileCh (p : Char → Bool) : List Char → List Char × List Char
  | [] => ([], [])
  | c :: cs =>
    if p c then
      let (t, r) := takeWhileCh p cs
      (c :: t, r)
    else ([], c :: cs)

/-- Numeric value of a list of decimal digit characters. -/
def digitsToNat : List Char → Nat
  | [] => 0
  | ds => ds.foldl (fun acc c => acc * 10 + (c.toNat - 48)) 0

/-- Modelled from the spec: the lexer's character scanner for one line.
Whitespace is skipped (never significant), digit runs become integer
literals (with an optional fractional part making a real literal, the
leading integer part possibly empty), identifier-shaped fragments are
classified through the keyword table, double-quoted fragments become
string literals, and one- or two-character operator fragments become the
corresponding operator tokens.  An unrecognized fragment is a syntax
error naming no recovery, surfaced exactly like the parser's errors. -/
def scan : Nat → List Char → Except String (List Tok)
  | 0, _ => .error "Syntax error: lexer fuel exhausted"
  | _, [] => .ok []
  | fuel + 1, c :: cs =>
    if c = ' ' || c = '\t' then scan fuel cs
    else if c.isDigit then
      let (ds, rest) := takeWhileCh Char.isDigit (c :: cs)
      match rest with
      | '.' :: r2 =>
        let (fs, rest2) := takeWhileCh Char.isDigit r2
        (scan fuel rest2).map (fun ts => Tok.numLit (String.mk ds) (String.mk fs) :: ts)
      | _ => (scan fuel rest).map (fun ts => Tok.intLit (digitsToNat ds) :: ts)
    else if c = '.' && (match cs with | d :: _ => d.isDigit | [] => false) then
      let (fs, rest) := takeWhileCh Char.isDigit cs
      (scan fuel rest).map (fun ts => Tok.numLit "" (String.mk fs) :: ts)
    else if isIdentStart c then
      let (xs, rest) := takeWhileCh isIdentCh (c :: cs)
      let w := String.mk xs
      let t := match kwOfString w with | some k => k | none => Tok.ident w
      (scan fuel rest).map (fun ts => t :: ts)
    else if c = '"' then
      let (body, rest) := takeWhileCh (fun ch => ch != '"') cs
      match rest with
      | '"' :: r2 => (scan fuel r2).map (fun ts => Tok.strLit (String.mk body) :: ts)
      | _ => .error "Syntax error: unterminated string"
    else
      match c, cs with
      | '=', '=' :: r => (scan fuel r).map (Tok.eqeq :: ·)
      | '!', '=' :: r => (scan fuel r).map (Tok.neq :: ·)
      | '<', '=' :: r => (scan fuel r).map (Tok.le :: ·)
      | '>', '=' :: r => (scan fuel r).map (Tok.ge :: ·)
      | '=', r => (scan fuel r).map (Tok.eq :: ·)
      | '<', r => (scan fuel r).map (Tok.lt :: ·)
      | '>', r => (scan fuel r).map (Tok.gt :: ·)
      | '+', r => (scan fuel r).map (Tok.plus :: ·)
      | '-', r => (scan fuel r).map (Tok.minus :: ·)
      | '*', r => (scan fuel r).map (Tok.star :: ·)
      | '/', r => (scan fuel r).map (Tok.slash :: ·)
      | '^', r => (scan fuel r).map (Tok.caret :: ·)
      | '(', r => (scan fuel r).map (Tok.lparen :: ·)
      | ')', r => (scan fuel r).map (Tok.rparen :: ·)
      | '[', r => (scan fuel r).map (Tok.lbrack :: ·)
      | ']', r => (scan fuel r).map (Tok.rbrack :: ·)
      | ',', r => (scan fuel r).map (Tok.comma :: ·)
      | '.', r => (scan fuel r).map (Tok.dot :: ·)
      | ':', r => (scan fuel r).map (Tok.colon :: ·)
      | _, _ => .error "Syntax error: unknown token"

/-- Modelled from the spec: tokens of a single source line.  A line that
is empty or all whitespace contributes no tokens. -/
def lexLine (s : String) : Except String (List Tok) :=
  scan (s.data.length + 1) s.data

/-- Modelled from the spec: the lexer consumes the lines in order and
produces one flat token stream; blank lines are skipped entirely and do
not separate statements. -/
def lexLines : List String → Except String (List Tok)
  | [] => .ok []
  | l :: ls => do
    let t ← lexLine l
    let ts ← lexLines ls
    .ok (t ++ ts)

/-- Additive operator kinds carried in an AddOp node's `val`. -/
inductive AddKind where
  | add | sub
deriving DecidableEq, Repr

/-- Multiplicative operator kinds carried in a MulOp node's `val`. -/
inductive MulKind where
  | mul | fdiv | intDiv | modulo
deriving DecidableEq, Repr

/-- Comparison operator kinds. -/
inductive CmpKind where
  | ceq | cne | clt | cgt | cle | cge
deriving DecidableEq, Repr

/-- Modelled from the spec: expression nodes of the AST.  Literal nodes
store their value as parsed (a real literal keeps its integer and
fractional digit strings); AddOp/MulOp are binary nodes tagged with the
specific operator kind; access chains are built by nesting field,
index and call suffixes around a base (each suffix applying to the
result of the preceding one); `newObj` is object instantiation. -/
inductive Expr where
  | intLit (n : Nat)
  | numLit (ip fp : String)
  | strLit (s : String)
  | boolLit (b : Bool)
  | ident (name : String)
  | unaryMinus (e : Expr)
  | powOp (l r : Expr)
  | mulOp (k : MulKind) (l r : Expr)
  | addOp (k : AddKind) (l r : Expr)
  | cmpOp (k : CmpKind) (l r : Expr)
  | notOp (e : Expr)
  | andOp (l r : Expr)
  | orOp (l r : Expr)
  | fieldAcc (base : Expr) (name : String)
  | indexAcc (base : Expr) (idxs : List Expr)
  | callAcc (base : Expr) (args : List Expr)
  | newObj (cls : String) (args : List Expr)

/-- Modelled from the spec: a function/procedure parameter; `is_byref`
defaults to pass-by-value when unannotated. -/
structure Param where
  name : String
  is_byref : Bool
deriving DecidableEq, Repr

mutual

/-- Modelled from the spec: statement nodes of the AST.  `varAssign` and
`arrayDecl` carry the GlobDecl `is_global` flag; blocks are ordered
statement lists; `ifStmt` keeps its if/elseif branches as
condition-block pairs plus an optional else block; `switchStmt` keeps
literal-block case pairs plus an optional default block. -/
inductive Stmt where
  | varAssign (is_global : Bool) (target : Expr) (value : Expr)
  | arrayDecl (is_global : Bool) (name : String) (dims : List Expr)
  | ifStmt (branches : List (Expr × List Stmt)) (elseBlk : Option (List Stmt))
  | forLoop (v : String) (first last : Expr) (body : List Stmt)
  | whileLoop (cond : Expr) (body : List Stmt)
  | doUntil (body : List Stmt) (cond : Expr)
  | switchStmt (scrut : Expr) (cases : List (Expr × List Stmt)) (dfl : Option (List Stmt))
  | funDecl (name : String) (params : List Param) (body : List Stmt)
  | procDecl (name : String) (params : List Param) (body : List Stmt)
  | classDecl (name : String) (parent : Option String) (members : List ClassMember)
  | callStmt (e : Expr)
  | printStmt (args : List Expr)
  | breakInstr
  | continueInstr
  | returnStmt (e : Option Expr)

/-- Modelled from the spec: a class member wraps a field or a nested
procedure/function declaration, with an `is_public` flag defaulting to
private. -/
inductive ClassMember where
  | fieldMember (is_public : Bool) (name : String)
  | subMember (is_public : Bool) (d : Stmt)

end

/-- Tokens that may begin an expression. -/
def canStartExpr : Tok → Bool
  | .ident _ | .intLit _ | .numLit _ _ | .strLit _ | .boolLit _
  | .lparen | .minus | .kNot | .kNew => true
  | _ => false

mutual

/-- Modelled from the spec: full expression entry point (logical OR,
the lowest-binding level; left-associative). -/
def parseExpr : Nat → List Tok → Except String (Expr × List Tok)
  | 0, _ => .error "Syntax error: parser fuel exhausted"
  | fuel + 1, ts => do
    let (l, r) ← parseAndE fuel ts
    parseOrTail fuel l r

def parseOrTail : Nat → Expr → List Tok → Except String (Expr × List Tok)
  | 0, _, _ => .error "Syntax error: parser fuel exhausted"
  | fuel + 1, acc, ts =>
    match ts with
    | .kOr :: r => do
      let (rhs, r2) ← parseAndE fuel r
      parseOrTail fuel (.orOp acc rhs) r2
    | _ => .ok (acc, ts)

/-- Logical AND level (left-associative). -/
def parseAndE : Nat → List Tok → Except String (Expr × List Tok)
  | 0, _ => .error "Syntax error: parser fuel exhausted"
  | fuel + 1, ts => do
    let (l, r) ← parseNotE fuel ts
    parseAndTail fuel l r

def parseAndTail : Nat → Expr → List Tok → Except String (Expr × List Tok)
  | 0, _, _ => .error "Syntax error: parser fuel exhausted"
  | fuel + 1, acc, ts =>
    match ts with
    | .kAnd :: r => do
      let (rhs, r2) ← parseNotE fuel r
      parseAndTail fuel (.andOp acc rhs) r2
    | _ => .ok (acc, ts)

/-- Unary NOT: binds tighter than AND/OR but looser than comparisons. -/
def parseNotE : Nat → List Tok → Except String (Expr × List Tok)
  | 0, _ => .error "Syntax error: parser fuel exhausted"
  | fuel + 1, ts =>
    match ts with
    | .kNot :: r => do
      let (e, r2) ← parseNotE fuel r
      .ok (.notOp e, r2)
    | _ => parseCmpE fuel ts

/-- Comparison level (left-associative). -/
def parseCmpE : Nat → List Tok → Except String (Expr × List Tok)
  | 0, _ => .error "Syntax error: parser fuel exhausted"
  | fuel + 1, ts => do
    let (l, r) ← parseAddE fuel ts
    parseCmpTail fuel l r

def parseCmpTail : Nat → Expr → List Tok → Except String (Expr × List Tok)
  | 0, _, _ => .error "Syntax error: parser fuel exhausted"
  | fuel + 1, acc, ts =>
    match ts with
    | .eqeq :: r => do
      let (rhs, r2) ← parseAddE fuel r
      parseCmpTail fuel (.cmpOp .ceq acc rhs) r2
    | .neq :: r => do
      let (rhs, r2) ← parseAddE fuel r
      parseCmpTail fuel (.cmpOp .cne acc rhs) r2
    | .lt :: r => do
      let (rhs, r2) ← parseAddE fuel r
      parseCmpTail fuel (.cmpOp .clt acc rhs) r2
    | .gt :: r => do
      let (rhs, r2) ← parseAddE fuel r
      parseCmpTail fuel (.cmpOp .cgt acc rhs) r2
    | .le :: r => do
      let (rhs, r2) ← parseAddE fuel r
      parseCmpTail fuel (.cmpOp .cle acc rhs) r2
    | .ge :: r => do
      let (rhs, r2) ← parseAddE fuel r
      parseCmpTail fuel (.cmpOp .cge acc rhs) r2
    | _ => .ok (acc, ts)

/-- Additive level (left-associative). -/
def parseAddE : Nat → List Tok → Except String (Expr × List Tok)
  | 0, _ => .error "Syntax error: parser fuel exhausted"
  | fuel + 1, ts => do
    let (l, r) ← parseMulE fuel ts
    parseAddTail fuel l r

def parseAddTail : Nat → Expr → List Tok → Except String (Expr × List Tok)
  | 0, _, _ => .error "Syntax error: parser fuel exhausted"
  | fuel + 1, acc, ts =>
    match ts with
    | .plus :: r => do
      let (rhs, r2) ← parseMulE fuel r
      parseAddTail fuel (.addOp .add acc rhs) r2
    | .minus :: r => do
      let (rhs, r2) ← parseMulE fuel r
      parseAddTail fuel (.addOp .sub acc rhs) r2
    | _ => .ok (acc, ts)

/-- Multiplicative level (left-associative). -/
def parseMulE : Nat → List Tok → Except String (Expr × List Tok)
  | 0, _ => .error "Syntax error: parser fuel exhausted"
  | fuel + 1, ts => do
    let (l, r) ← parsePowE fuel ts
    parseMulTail fuel l r

def parseMulTail : Nat → Expr → List Tok → Except String (Expr × List Tok)
  | 0, _, _ => .error "Syntax error: parser fuel exhausted"
  | fuel + 1, acc, ts =>
    match ts with
    | .star :: r => do
      let (rhs, r2) ← parsePowE fuel r
      parseMulTail fuel (.mulOp .mul acc rhs) r2
    | .slash :: r => do
      let (rhs, r2) ← parsePowE fuel r
      parseMulTail fuel (.mulOp .fdiv acc rhs) r2
    | .kDiv :: r => do
      let (rhs, r2) ← parsePowE fuel r
      parseMulTail fuel (.mulOp .intDiv acc rhs) r2
    | .kMod :: r => do
      let (rhs, r2) ← parsePowE fuel r
      parseMulTail fuel (.mulOp .modulo acc rhs) r2
    | _ => .ok (acc, ts)

/-- Exponentiation level (right-associative, the spec's recommended
convention for the unexercised chained case). -/
def parsePowE : Nat → List Tok → Except String (Expr × List Tok)
  | 0, _ => .error "Syntax error: parser fuel exhausted"
  | fuel + 1, ts => do
    let (l, r) ← parseUnaryE fuel ts
    match r with
    | .caret :: r2 => do
      let (rhs, r3) ← parsePowE fuel r2
      .ok (.powOp l rhs, r3)
    | _ => .ok (l, r)

/-- Unary minus: binds to its immediate operand only (tighter than every
binary operator). -/
def parseUnaryE : Nat → List Tok → Except String (Expr × List Tok)
  | 0, _ => .error "Syntax error: parser fuel exhausted"
  | fuel + 1, ts =>
    match ts with
    | .minus :: r => do
      let (e, r2) ← parseUnaryE fuel r
      .ok (.unaryMinus e, r2)
    | _ => parsePrimaryE fuel ts

/-- Primary expressions: parenthesized expressions, literals, object
instantiation, and access chains rooted at an identifier. -/
def parsePrimaryE : Nat → List Tok → Except String (Expr × List Tok)
  | 0, _ => .error "Syntax error: parser fuel exhausted"
  | fuel + 1, ts =>
    match ts with
    | .lparen :: r => do
      let (e, r2) ← parseExpr fuel r
      match r2 with
      | .rparen :: r3 => .ok (e, r3)
      | _ => .error "Syntax error: closing parenthesis expected"
    | .intLit n :: r => .ok (.intLit n, r)
    | .numLit ip fp :: r => .ok (.numLit ip fp, r)
    | .strLit s :: r => .ok (.strLit s, r)
    | .boolLit b :: r => .ok (.boolLit b, r)
    | .kNew :: .ident c :: .lparen :: r => do
      let (args, r2) ← parseArgsE fuel r
      match r2 with
      | .rparen :: r3 => parseSuffixes fuel (.newObj c args) r3
      | _ => .error "Syntax error: closing parenthesis expected"
    | .ident s :: r => parseSuffixes fuel (.ident s) r
    | _ => .error "Syntax error: expression expected"

/-- Access-chain suffixes: field access, indexing and calls, freely
chained and intermixed, each applying to the preceding result. -/
def parseSuffixes : Nat → Expr → List Tok → Except String (Expr × List Tok)
  | 0, _, _ => .error "Syntax error: parser fuel exhausted"
  | fuel + 1, acc, ts =>
    match ts with
    | .dot :: .ident f :: r => parseSuffixes fuel (.fieldAcc acc f) r
    | .dot :: .kNew :: r => parseSuffixes fuel (.fieldAcc acc "new") r
    | .lbrack :: r => do
      let (es, r2) ← parseExprList fuel r
      match r2 with
      | .rbrack :: r3 => parseSuffixes fuel (.indexAcc acc es) r3
      | _ => .error "Syntax error: closing bracket expected"
    | .lparen :: r => do
      let (args, r2) ← parseArgsE fuel r
      match r2 with
      | .rparen :: r3 => parseSuffixes fuel (.callAcc acc args) r3
      | _ => .error "Syntax error: closing parenthesis expected"
    | _ => .ok (acc, ts)

/-- Non-empty comma-separated expression list; an empty list is the
fixed diagnostic "Syntax error: list of expressions expected". -/
def parseExprList : Nat → List Tok → Except String (List Expr × List Tok)
  | 0, _ => .error "Syntax error: parser fuel exhausted"
  | fuel + 1, ts =>
    if (ts.head?.map canStartExpr).getD false then do
      let (e, r) ← parseExpr fuel ts
      let (es, r2) ← parseExprListTail fuel r
      .ok (e :: es, r2)
    else .error "Syntax error: list of expressions expected"

def parseExprListTail : Nat → List Tok → Except String (List Expr × List Tok)
  | 0, _ => .error "Syntax error: parser fuel exhausted"
  | fuel + 1, ts =>
    match ts with
    | .comma :: r => do
      let (e, r2) ← parseExpr fuel r
      let (es, r3) ← parseExprListTail fuel r2
      .ok (e :: es, r3)
    | _ => .ok ([], ts)

/-- Call-argument list: possibly empty, terminated by a closing
parenthesis. -/
def parseArgsE : Nat → List Tok → Except String (List Expr × List Tok)
  | 0, _ => .error "Syntax error: parser fuel exhausted"
  | fuel + 1, ts =>
    match ts with
    | .rparen :: _ => .ok ([], ts)
    | _ => parseExprList fuel ts

end

/-- A function/procedure name: an identifier, or the reserved
constructor name `new`. -/
def parseSubName : List Tok → Except String (String × List Tok) :=
  fun ts =>
    match ts with
    | .ident s :: r => .ok (s, r)
    | .kNew :: r => .ok ("new", r)
    | _ => .error "Syntax error: identifier expected"

/-- A switch-case label: a literal. -/
def parseCaseLit : List Tok → Except String (Expr × List Tok) :=
  fun ts =>
    match ts with
    | .intLit n :: r => .ok (.intLit n, r)
    | .numLit ip fp :: r => .ok (.numLit ip fp, r)
    | .strLit s :: r => .ok (.strLit s, r)
    | .boolLit b :: r => .ok (.boolLit b, r)
    | _ => .error "Syntax error: literal expected"

mutual

/-- Modelled from the spec: statement dispatch, keyword/shape-driven.
An optional leading `global` keyword sets `is_global` and must be
followed either by an `array` declaration or by an access-chain
assignment; absence of `array` selects the assignment grammar (the
deliberate disambiguation rule).  A statement starting with a bare
identifier is an access-chain assignment, or a call statement when the
chain ends in a call and no `=` follows. -/
def parseStmt : Nat → List Tok → Except String (Stmt × List Tok)
  | 0, _ => .error "Syntax error: parser fuel exhausted"
  | fuel + 1, ts =>
    match ts with
    | .kGlobal :: .kArray :: r => parseArrayTail fuel true r
    | .kGlobal :: r => parseAssignTail fuel true r
    | .kArray :: r => parseArrayTail fuel false r
    | .kIf :: r => do
      let (cond, r1) ← parseExpr fuel r
      match r1 with
      | .kThen :: r2 => do
        let (blk, r3) ← parseBlock fuel [.kElseif, .kElse, .kEndif] r2
        let (branches, elseBlk, r4) ← parseIfTail fuel r3
        .ok (.ifStmt ((cond, blk) :: branches) elseBlk, r4)
      | _ => .error "Syntax error: then expected"
    | .kFor :: .ident v :: .eq :: r => do
      let (e1, r1) ← parseExpr fuel r
      match r1 with
      | .kTo :: r2 => do
        let (e2, r3) ← parseExpr fuel r2
        let (blk, r4) ← parseBlock fuel [.kNext] r3
        match r4 with
        | .kNext :: .ident _ :: r5 => .ok (.forLoop v e1 e2 blk, r5)
        | _ => .error "Syntax error: next with loop variable expected"
      | _ => .error "Syntax error: to expected"
    | .kFor :: _ => .error "Syntax error: identifier expected"
    | .kWhile :: r => do
      let (cond, r1) ← parseExpr fuel r
      let (blk, r2) ← parseBlock fuel [.kEndwhile] r1
      match r2 with
      | .kEndwhile :: r3 => .ok (.whileLoop cond blk, r3)
      | _ => .error "Syntax error: endwhile expected"
    | .kDo :: r => do
      let (blk, r1) ← parseBlock fuel [.kUntil] r
      match r1 with
      | .kUntil :: r2 => do
        let (cond, r3) ← parseExpr fuel r2
        .ok (.doUntil blk cond, r3)
      | _ => .error "Syntax error: until expected"
    | .kSwitch :: r => do
      let (scrut, r1) ← parseExpr fuel r
      match r1 with
      | .colon :: r2 => do
        let (cases, dfl, r3) ← parseCaseTail fuel r2
        .ok (.switchStmt scrut cases dfl, r3)
      | _ => .error "Syntax error: colon expected"
    | .kFunction :: r => do
      let (name, r1) ← parseSubName r
      match r1 with
      | .lparen :: r2 => do
        let (ps, r3) ← parseParams fuel r2
        match r3 with
        | .rparen :: r4 => do
          let (blk, r5) ← parseBlock fuel [.kEndfunction] r4
          match r5 with
          | .kEndfunction :: r6 => .ok (.funDecl name ps blk, r6)
          | _ => .error "Syntax error: endfunction expected"
        | _ => .error "Syntax error: closing parenthesis expected"
      | _ => .error "Syntax error: opening parenthesis expected"
    | .kProcedure :: r => do
      let (name, r1) ← parseSubName r
      match r1 with
      | .lparen :: r2 => do
        let (ps, r3) ← parseParams fuel r2
        match r3 with
        | .rparen :: r4 => do
          let (blk, r5) ← parseBlock fuel [.kEndprocedure] r4
          match r5 with
          | .kEndprocedure :: r6 => .ok (.procDecl name ps blk, r6)
          | _ => .error "Syntax error: endprocedure expected"
        | _ => .error "Syntax error: closing parenthesis expected"
      | _ => .error "Syntax error: opening parenthesis expected"
    | .kClass :: .ident n :: .kInherits :: .ident p :: r => do
      let (ms, r1) ← parseMembers fuel r
      .ok (.classDecl n (some p) ms, r1)
    | .kClass :: .ident n :: r => do
      let (ms, r1) ← parseMembers fuel r
      .ok (.classDecl n none ms, r1)
    | .kClass :: _ => .error "Syntax error: identifier expected"
    | .kPrint :: .lparen :: r => do
      let (args, r1) ← parseArgsE fuel r
      match r1 with
      | .rparen :: r2 => .ok (.printStmt args, r2)
      | _ => .error "Syntax error: closing parenthesis expected"
    | .kPrint :: _ => .error "Syntax error: opening parenthesis expected"
    | .kBreak :: r => .ok (.breakInstr, r)
    | .kContinue :: r => .ok (.continueInstr, r)
    | .kReturn :: r =>
      if (r.head?.map canStartExpr).getD false then do
        let (e, r1) ← parseExpr fuel r
        .ok (.returnStmt (some e), r1)
      else .ok (.returnStmt none, r)
    | .ident s :: r => do
      let (chain, r1) ← parseSuffixes fuel (.ident s) r
      match r1 with
      | .eq :: r2 => do
        let (v, r3) ← parseExpr fuel r2
        .ok (.varAssign false chain v, r3)
      | _ =>
        match chain with
        | .callAcc b args => .ok (.callStmt (.callAcc b args), r1)
        | _ => .error "Syntax error: = expected"
    | _ => .error "Syntax error: statement expected"

/-- Tail of an array declaration, after the `array` keyword: an
identifier, then a non-empty bracketed dimension list. -/
def parseArrayTail : Nat → Bool → List Tok → Except String (Stmt × List Tok)
  | 0, _, _ => .error "Syntax error: parser fuel exhausted"
  | fuel + 1, g, ts =>
    match ts with
    | .ident n :: .lbrack :: r => do
      let (dims, r1) ← parseExprList fuel r
      match r1 with
      | .rbrack :: r2 => .ok (.arrayDecl g n dims, r2)
      | _ => .error "Syntax error: closing bracket expected"
    | .ident _ :: _ => .error "Syntax error: opening bracket expected"
    | _ => .error "Syntax error: identifier expected"

/-- Tail of a `global`-promoted assignment: an access-chain target,
`=`, and the assigned expression. -/
def parseAssignTail : Nat → Bool → List Tok → Except String (Stmt × List Tok)
  | 0, _, _ => .error "Syntax error: parser fuel exhausted"
  | fuel + 1, g, ts =>
    match ts with
    | .ident s :: r => do
      let (chain, r1) ← parseSuffixes fuel (.ident s) r
      match r1 with
      | .eq :: r2 => do
        let (v, r3) ← parseExpr fuel r2
        .ok (.varAssign g chain v, r3)
      | _ => .error "Syntax error: = expected"
    | _ => .error "Syntax error: identifier expected"

/-- A statement block: statements up to (not consuming) one of the
terminating keywords that delimit the block. -/
def parseBlock : Nat → List Tok → List Tok → Except String (List Stmt × List Tok)
  | 0, _, _ => .error "Syntax error: parser fuel exhausted"
  | fuel + 1, stops, ts =>
    match ts with
    | [] => .error "Syntax error: block terminator expected"
    | t :: _ =>
      if stops.contains t then .ok ([], ts)
      else do
        let (s, r) ← parseStmt fuel ts
        let (ss, r2) ← parseBlock fuel stops r
        .ok (s :: ss, r2)

/-- elseif/else/endif tail of a conditional. -/
def parseIfTail : Nat → List Tok → Except String (List (Expr × List Stmt) × Option (List Stmt) × List Tok)
  | 0, _ => .error "Syntax error: parser fuel exhausted"
  | fuel + 1, ts =>
    match ts with
    | .kElseif :: r => do
      let (cond, r1) ← parseExpr fuel r
      match r1 with
      | .kThen :: r2 => do
        let (blk, r3) ← parseBlock fuel [.kElseif, .kElse, .kEndif] r2
        let (branches, elseBlk, r4) ← parseIfTail fuel r3
        .ok ((cond, blk) :: branches, elseBlk, r4)
      | _ => .error "Syntax error: then expected"
    | .kElse :: r => do
      let (blk, r1) ← parseBlock fuel [.kEndif] r
      match r1 with
      | .kEndif :: r2 => .ok ([], some blk, r2)
      | _ => .error "Syntax error: endif expected"
    | .kEndif :: r => .ok ([], none, r)
    | _ => .error "Syntax error: endif expected"

/-- case/default/endswitch tail of a switch statement; each clause's
block runs until the next `case`/`default`/`endswitch`. -/
def parseCaseTail : Nat → List Tok → Except String (List (Expr × List Stmt) × Option (List Stmt) × List Tok)
  | 0, _ => .error "Syntax error: parser fuel exhausted"
  | fuel + 1, ts =>
    match ts with
    | .kCase :: r => do
      let (lit, r1) ← parseCaseLit r
      match r1 with
      | .colon :: r2 => do
        let (blk, r3) ← parseBlock fuel [.kCase, .kDefault, .kEndswitch] r2
        let (cases, dfl, r4) ← parseCaseTail fuel r3
        .ok ((lit, blk) :: cases, dfl, r4)
      | _ => .error "Syntax error: colon expected"
    | .kDefault :: .colon :: r => do
      let (blk, r1) ← parseBlock fuel [.kEndswitch] r
      match r1 with
      | .kEndswitch :: r2 => .ok ([], some blk, r2)
      | _ => .error "Syntax error: endswitch expected"
    | .kEndswitch :: r => .ok ([], none, r)
    | _ => .error "Syntax error: endswitch expected"

/-- Comma-separated parameter list of a function/procedure declaration;
possibly empty (terminated by the closing parenthesis).  A parameter is
an identifier with an optional `:byRef` or `:byVal` annotation;
unannotated defaults to byVal. -/
def parseParams : Nat → List Tok → Except String (List Param × List Tok)
  | 0, _ => .error "Syntax error: parser fuel exhausted"
  | fuel + 1, ts =>
    match ts with
    | .rparen :: _ => .ok ([], ts)
    | _ => parseParamsNE fuel ts

def parseParamsNE : Nat → List Tok → Except String (List Param × List Tok)
  | 0, _ => .error "Syntax error: parser fuel exhausted"
  | fuel + 1, ts =>
    match ts with
    | .ident n :: .colon :: .kByRef :: r => parseParamsCont fuel ⟨n, true⟩ r
    | .ident n :: .colon :: .kByVal :: r => parseParamsCont fuel ⟨n, false⟩ r
    | .ident _ :: .colon :: _ => .error "Syntax error: byRef or byVal expected"
    | .ident n :: r => parseParamsCont fuel ⟨n, false⟩ r
    | _ => .error "Syntax error: identifier expected"

/-- After one parameter: a comma continues the list, anything else ends
it. -/
def parseParamsCont : Nat → Param → List Tok → Except String (List Param × List Tok)
  | 0, _, _ => .error "Syntax error: parser fuel exhausted"
  | fuel + 1, p, ts =>
    match ts with
    | .comma :: r => do
      let (ps, r1) ← parseParamsNE fuel r
      .ok (p :: ps, r1)
    | _ => .ok ([p], ts)

/-- Class body members up to and consuming `endclass`: optionally
`private`/`public` (default private), then a field name or a nested
procedure/function declaration. -/
def parseMembers : Nat → List Tok → Except String (List ClassMember × List Tok)
  | 0, _ => .error "Syntax error: parser fuel exhausted"
  | fuel + 1, ts =>
    match ts with
    | .kEndclass :: r => .ok ([], r)
    | .kPrivate :: r => do
      let (m, r1) ← parseMemberBody fuel false r
      let (ms, r2) ← parseMembers fuel r1
      .ok (m :: ms, r2)
    | .kPublic :: r => do
      let (m, r1) ← parseMemberBody fuel true r
      let (ms, r2) ← parseMembers fuel r1
      .ok (m :: ms, r2)
    | _ => do
      let (m, r1) ← parseMemberBody fuel false ts
      let (ms, r2) ← parseMembers fuel r1
      .ok (m :: ms, r2)

def parseMemberBody : Nat → Bool → List Tok → Except String (ClassMember × List Tok)
  | 0, _, _ => .error "Syntax error: parser fuel exhausted"
  | fuel + 1, pub, ts =>
    match ts with
    | .kProcedure :: _ => do
      let (d, r) ← parseStmt fuel ts
      .ok (.subMember pub d, r)
    | .kFunction :: _ => do
      let (d, r) ← parseStmt fuel ts
      .ok (.subMember pub d, r)
    | .ident n :: r => .ok (.fieldMember pub n, r)
    | _ => .error "Syntax error: class member expected"

end

/-- The top-level statement sequence: statements until the token stream
is exhausted. -/
def parseProgram : Nat → List Tok → Except String (List Stmt)
  | 0, _ => .error "Syntax error: parser fuel exhausted"
  | _, [] => .ok []
  | fuel + 1, ts => do
    let (s, r) ← parseStmt fuel ts
    let ss ← parseProgram fuel r
    .ok (s :: ss)

/-- Fuel amply covering the parser's recursion depth for a given token
stream (the recursion consumes fuel on every call, and between two
consecutive token consumptions only a bounded number of calls occur). -/
def fuelFor (ts : List Tok) : Nat := 64 * ts.length + 64

/-- Modelled from the spec: core entry point
`parse(source_lines) → AST root or absent`.  Lexes the lines into one
token stream and parses the top-level statement sequence; returns the
absent value when the stream is exhausted with zero statements parsed,
and otherwise the root's children (the top-level statements in source
order).  Malformed input fails with a fixed diagnostic string. -/
def parse (lines : List String) : Except String (Option (List Stmt)) := do
  let ts ← lexLines lines
  let ss ← parseProgram (fuelFor ts) ts
  .ok (if ss.isEmpty then none else some ss)

/-- True exactly on ArrayDecl statement nodes. -/
def Stmt.isArrayDecl : Stmt → Bool
  | .arrayDecl _ _ _ => true
  | _ => false

/-- Canonical token of an additive operator kind. -/
def addTok : AddKind → Tok
  | .add => .plus
  | .sub => .minus

/-- Canonical token of a multiplicative operator kind. -/
def mulTok : MulKind → Tok
  | .mul => .star
  | .fdiv => .slash
  | .intDiv => .kDiv
  | .modulo => .kMod

/-- Canonical token of a comparison operator kind. -/
def cmpTok : CmpKind → Tok
  | .ceq => .eqeq
  | .cne => .neq
  | .clt => .lt
  | .cgt => .gt
  | .cle => .le
  | .cge => .ge

/-- Token of a member/subroutine name: the reserved constructor name
`new` lexes as the `new` keyword, anything else as an identifier. -/
def nameTok (s : String) : Tok :=
  if s = "new" then .kNew else .ident s

/-- The precedence level at which an expression node natively lives
(0 = logical OR, the loosest, through 8 = primary, the tightest). -/
def prec : Expr → Nat
  | .orOp _ _ => 0
  | .andOp _ _ => 1
  | .notOp _ => 2
  | .cmpOp _ _ _ => 3
  | .addOp _ _ _ => 4
  | .mulOp _ _ _ => 5
  | .powOp _ _ => 6
  | .unaryMinus _ => 7
  | _ => 8

mutual

/-- Canonical re-rendering of an expression as a token sequence, at a
requested precedence level: a node looser than the requested level is
parenthesized, operator nodes re-render through the canonical
kind-to-token mapping, and chains re-render suffix by suffix. -/
def renderAt : Nat → Expr → List Tok
  | lvl, e =>
    let body : List Tok :=
      match e with
      | .orOp l r => renderAt 0 l ++ [Tok.kOr] ++ renderAt 1 r
      | .andOp l r => renderAt 1 l ++ [Tok.kAnd] ++ renderAt 2 r
      | .notOp x => Tok.kNot :: renderAt 2 x
      | .cmpOp k l r => renderAt 3 l ++ [cmpTok k] ++ renderAt 4 r
      | .addOp k l r => renderAt 4 l ++ [addTok k] ++ renderAt 5 r
      | .mulOp k l r => renderAt 5 l ++ [mulTok k] ++ renderAt 6 r
      | .powOp l r => renderAt 7 l ++ [Tok.caret] ++ renderAt 6 r
      | .unaryMinus x => Tok.minus :: renderAt 7 x
      | .intLit n => [Tok.intLit n]
      | .numLit ip fp => [Tok.numLit ip fp]
      | .strLit s => [Tok.strLit s]
      | .boolLit b => [Tok.boolLit b]
      | .ident s => [Tok.ident s]
      | .fieldAcc b n => renderAt 8 b ++ [Tok.dot, nameTok n]
      | .indexAcc b es => renderAt 8 b ++ [Tok.lbrack] ++ renderEList es ++ [Tok.rbrack]
      | .callAcc b es => renderAt 8 b ++ [Tok.lparen] ++ renderEList es ++ [Tok.rparen]
      | .newObj c es => [Tok.kNew, Tok.ident c, Tok.lparen] ++ renderEList es ++ [Tok.rparen]
    if lvl ≤ prec e then body else Tok.lparen :: (body ++ [Tok.rparen])

/-- Canonical re-rendering of a comma-separated expression list. -/
def renderEList : List Expr → List Tok
  | [] => []
  | e :: es => renderAt 0 e ++ renderEListTail es

/-- Comma-prefixed continuation of an expression-list re-rendering. -/
def renderEListTail : List Expr → List Tok
  | [] => []
  | e :: es => Tok.comma :: renderAt 0 e ++ renderEListTail es

end

mutual

/-- Canonical re-rendering of a statement as a token sequence. -/
def renderStmt : Stmt → List Tok
  | .varAssign g t v =>
    (if g then [Tok.kGlobal] else []) ++ renderAt 8 t ++ Tok.eq :: renderAt 0 v
  | .arrayDecl g n dims =>
    (if g then [Tok.kGlobal] else []) ++
      [Tok.kArray, Tok.ident n, Tok.lbrack] ++ renderEList dims ++ [Tok.rbrack]
  | .ifStmt branches elseBlk =>
    (match branches with
     | [] => []
     | (c, b) :: rest =>
       [Tok.kIf] ++ renderAt 0 c ++ [Tok.kThen] ++ renderBlock b ++ renderElifs rest) ++
    (match elseBlk with
     | some b => Tok.kElse :: renderBlock b
     | none => []) ++ [Tok.kEndif]
  | .forLoop v e1 e2 body =>
    [Tok.kFor, Tok.ident v, Tok.eq] ++ renderAt 0 e1 ++ [Tok.kTo] ++ renderAt 0 e2 ++
      renderBlock body ++ [Tok.kNext, Tok.ident v]
  | .whileLoop c b => [Tok.kWhile] ++ renderAt 0 c ++ renderBlock b ++ [Tok.kEndwhile]
  | .doUntil b c => [Tok.kDo] ++ renderBlock b ++ [Tok.kUntil] ++ renderAt 0 c
  | .switchStmt s cases dfl =>
    [Tok.kSwitch] ++ renderAt 0 s ++ [Tok.colon] ++ renderCases cases ++
    (match dfl with
     | some b => [Tok.kDefault, Tok.colon] ++ renderBlock b
     | none => []) ++ [Tok.kEndswitch]
  | .funDecl n ps b =>
    [Tok.kFunction, nameTok n, Tok.lparen] ++ renderParams ps ++ [Tok.rparen] ++
      renderBlock b ++ [Tok.kEndfunction]
  | .procDecl n ps b =>
    [Tok.kProcedure, nameTok n, Tok.lparen] ++ renderParams ps ++ [Tok.rparen] ++
      renderBlock b ++ [Tok.kEndprocedure]
  | .classDecl n par ms =>
    [Tok.kClass, Tok.ident n] ++
    (match par with
     | some p => [Tok.kInherits, Tok.ident p]
     | none => []) ++ renderMembers ms ++ [Tok.kEndclass]
  | .callStmt e => renderAt 8 e
  | .printStmt args => [Tok.kPrint, Tok.lparen] ++ renderEList args ++ [Tok.rparen]
  | .breakInstr => [Tok.kBreak]
  | .continueInstr => [Tok.kContinue]
  | .returnStmt (some e) => Tok.kReturn :: renderAt 0 e
  | .returnStmt none => [Tok.kReturn]

/-- Statement-sequence re-rendering of a block body. -/
def renderBlock : List Stmt → List Tok
  | [] => []
  | s :: ss => renderStmt s ++ renderBlock ss

/-- elseif-branch re-rendering. -/
def renderElifs : List (Expr × List Stmt) → List Tok
  | [] => []
  | (c, b) :: rest =>
    [Tok.kElseif] ++ renderAt 0 c ++ [Tok.kThen] ++ renderBlock b ++ renderElifs rest

/-- switch-case re-rendering. -/
def renderCases : List (Expr × List Stmt) → List Tok
  | [] => []
  | (l, b) :: rest =>
    [Tok.kCase] ++ renderAt 0 l ++ [Tok.colon] ++ renderBlock b ++ renderCases rest

/-- Parameter-list re-rendering: a by-reference parameter re-renders
with its `:byRef` annotation, a by-value one with no annotation. -/
def renderParams : List Param → List Tok
  | [] => []
  | [p] => Tok.ident p.name :: (if p.is_byref then [Tok.colon, Tok.kByRef] else [])
  | p :: ps =>
    Tok.ident p.name :: (if p.is_byref then [Tok.colon, Tok.kByRef] else []) ++
      Tok.comma :: renderParams ps

/-- Class-member re-rendering, with explicit visibility keywords. -/
def renderMembers : List ClassMember → List Tok
  | [] => []
  | .fieldMember pub n :: rest =>
    (if pub then Tok.kPublic else Tok.kPrivate) :: Tok.ident n :: renderMembers rest
  | .subMember pub d :: rest =>
    (if pub then Tok.kPublic else Tok.kPrivate) :: renderStmt d ++ renderMembers rest

end

/-- Token sequence of a whole program (the root's statement list). -/
def renderProgram : List Stmt → List Tok
  | [] => []
  | s :: ss => renderStmt s ++ renderProgram ss

/-- Decimal digit characters of a natural number. -/
def natDigits (n : Nat) : List Char :=
  if h : n < 10 then [Char.ofNat (48 + n)]
  else natDigits (n / 10) ++ [Char.ofNat (48 + n % 10)]
decreasing_by exact Nat.div_lt_self (by omega) (by omega)

/-- The canonical source text of one token: the tokenizer's fixed
kind-to-text mapping for keywords and operators, and the literal's own
text for identifier and literal tokens. -/
def tokText : Tok → String
  | .ident s => s
  | .intLit n => String.mk (natDigits n)
  | .numLit ip fp => ip ++ "." ++ fp
  | .strLit s => "\"" ++ s ++ "\""
  | .boolLit true => "true"
  | .boolLit false => "false"
  | .kGlobal => "global"
  | .kArray => "array"
  | .kIf => "if"
  | .kThen => "then"
  | .kElseif => "elseif"
  | .kElse => "else"
  | .kEndif => "endif"
  | .kFor => "for"
  | .kTo => "to"
  | .kNext => "next"
  | .kWhile => "while"
  | .kEndwhile => "endwhile"
  | .kDo => "do"
  | .kUntil => "until"
  | .kSwitch => "switch"
  | .kCase => "case"
  | .kDefault => "default"
  | .kEndswitch => "endswitch"
  | .kFunction => "function"
  | .kEndfunction => "endfunction"
  | .kProcedure => "procedure"
  | .kEndprocedure => "endprocedure"
  | .kReturn => "return"
  | .kBreak => "break"
  | .kContinue => "continue"
  | .kClass => "class"
  | .kEndclass => "endclass"
  | .kInherits => "inherits"
  | .kPrivate => "private"
  | .kPublic => "public"
  | .kNew => "new"
  | .kPrint => "print"
  | .kNot => "NOT"
  | .kAnd => "AND"
  | .kOr => "OR"
  | .kMod => "MOD"
  | .kDiv => "DIV"
  | .kByRef => "byRef"
  | .kByVal => "byVal"
  | .plus => "+"
  | .minus => "-"
  | .star => "*"
  | .slash => "/"
  | .caret => "^"
  | .eq => "="
  | .eqeq => "=="
  | .neq => "!="
  | .lt => "<"
  | .gt => ">"
  | .le => "<="
  | .ge => ">="
  | .lparen => "("
  | .rparen => ")"
  | .lbrack => "["
  | .rbrack => "]"
  | .comma => ","
  | .dot => "."
  | .colon => ":"

/-- Source-text re-rendering of a token sequence: each token's canonical
text followed by a single separating space. -/
def detok : List Tok → String
  | [] => ""
  | t :: ts => tokText t ++ " " ++ detok ts

/-- Canonical source-text re-rendering of a parsed program: one line
holding the canonical text of every token of the re-rendered root. -/
def renderSource (prog : List Stmt) : String :=
  detok (renderProgram prog)

mutual

/-- Node count of an expression. -/
def esize : Expr → Nat
  | .intLit _ => 1
  | .numLit _ _ => 1
  | .strLit _ => 1
  | .boolLit _ => 1
  | .ident _ => 1
  | .unaryMinus e => 1 + esize e
  | .notOp e => 1 + esize e
  | .powOp l r => 1 + esize l + esize r
  | .orOp l r => 1 + esize l + esize r
  | .andOp l r => 1 + esize l + esize r
  | .cmpOp _ l r => 1 + esize l + esize r
  | .addOp _ l r => 1 + esize l + esize r
  | .mulOp _ l r => 1 + esize l + esize r
  | .fieldAcc b _ => 1 + esize b
  | .indexAcc b es => 1 + esize b + elsize es
  | .callAcc b es => 1 + esize b + elsize es
  | .newObj _ es => 1 + elsize es

/-- Node count of an expression list. -/
def elsize : List Expr → Nat
  | [] => 0
  | e :: es => 1 + esize e + elsize es

end

mutual

/-- Node count of a statement. -/
def stsize : Stmt → Nat
  | .varAssign _ t v => 1 + esize t + esize v
  | .arrayDecl _ _ dims => 1 + elsize dims
  | .ifStmt branches els => 1 + brsize branches + obsize els
  | .forLoop _ e1 e2 b => 1 + esize e1 + esize e2 + blsize b
  | .whileLoop c b => 1 + esize c + blsize b
  | .doUntil b c => 1 + blsize b + esize c
  | .switchStmt s cases dfl => 1 + esize s + brsize cases + obsize dfl
  | .funDecl _ ps b => 1 + ps.length + blsize b
  | .procDecl _ ps b => 1 + ps.length + blsize b
  | .classDecl _ _ ms => 1 + msize ms
  | .callStmt e => 1 + esize e
  | .printStmt args => 1 + elsize args
  | .breakInstr => 1
  | .continueInstr => 1
  | .returnStmt (some e) => 1 + esize e
  | .returnStmt none => 1

/-- Node count of a statement block. -/
def blsize : List Stmt → Nat
  | [] => 0
  | s :: ss => 1 + stsize s + blsize ss

/-- Node count of a condition-block pair list. -/
def brsize : List (Expr × List Stmt) → Nat
  | [] => 0
  | (c, b) :: rest => 1 + esize c + blsize b + brsize rest

/-- Node count of an optional block. -/
def obsize : Option (List Stmt) → Nat
  | none => 0
  | some b => 1 + blsize b

/-- Node count of a class-member list. -/
def msize : List ClassMember → Nat
  | [] => 0
  | .fieldMember _ _ :: rest => 1 + msize rest
  | .subMember _ d :: rest => 1 + stsize d + msize rest

end

/-- The precedence level whose tail parser would consume this token as
a continuation (operators by their level, access-chain suffix openers
at the primary level); `none` for every other token. -/
def contLevel : Tok → Option Nat
  | .kOr => some 0
  | .kAnd => some 1
  | .eqeq => some 3
  | .neq => some 3
  | .lt => some 3
  | .gt => some 3
  | .le => some 3
  | .ge => some 3
  | .plus => some 4
  | .minus => some 4
  | .star => some 5
  | .slash => some 5
  | .kDiv => some 5
  | .kMod => some 5
  | .caret => some 6
  | .dot => some 8
  | .lbrack => some 8
  | .lparen => some 8
  | _ => none

/-- A token stream may directly follow a level-`L` expression render
when its head is consumed by no tail parser of level `L` or tighter. -/
def followOk (L : Nat) : List Tok → Bool
  | [] => true
  | t :: _ =>
    match contLevel t with
    | none => true
    | some l => decide (l < L)

/-- Identifier-shaped fragment: a letter or underscore followed by
alphanumerics or underscores. -/
def identShaped (s : String) : Bool :=
  match s.data with
  | [] => false
  | c :: cs => isIdentStart c && cs.all isIdentCh

/-- A name the tokenizer classifies as a plain identifier. -/
def wfName (s : String) : Bool :=
  identShaped s && (kwOfString s).isNone

/-- A field name: a plain identifier or the reserved name `new`. -/
def wfFieldName (s : String) : Bool :=
  wfName s || s = "new"

/-- A function/procedure name: a plain identifier or `new`. -/
def wfSubName (s : String) : Bool :=
  wfName s || s = "new"

def digitsStr (s : String) : Bool := s.data.all Char.isDigit

def noQuote (s : String) : Bool := s.data.all (fun c => c != '"')

/-- Tokens as the lexer produces them: identifier names are
identifier-shaped non-keywords, string literals hold no quote, real
literals hold digit strings not both empty. -/
def wfTok : Tok → Bool
  | .ident s => wfName s
  | .strLit s => noQuote s
  | .numLit ip fp => digitsStr ip && digitsStr fp && (!ip.isEmpty || !fp.isEmpty)
  | _ => true

mutual

/-- Well-formed expressions, as the parser produces them: names are
lexer-shaped, chain nodes are rooted in an identifier or an object
instantiation, index lists are non-empty. -/
def wfE : Expr → Bool
  | .intLit _ => true
  | .numLit ip fp => digitsStr ip && digitsStr fp && (!ip.isEmpty || !fp.isEmpty)
  | .strLit s => noQuote s
  | .boolLit _ => true
  | .ident s => wfName s
  | .unaryMinus e => wfE e
  | .notOp e => wfE e
  | .powOp l r => wfE l && wfE r
  | .orOp l r => wfE l && wfE r
  | .andOp l r => wfE l && wfE r
  | .cmpOp _ l r => wfE l && wfE r
  | .addOp _ l r => wfE l && wfE r
  | .mulOp _ l r => wfE l && wfE r
  | .fieldAcc b n => wfFieldName n && wfChainE b
  | .indexAcc b es => wfChainE b && !es.isEmpty && wfEList es
  | .callAcc b es => wfChainE b && wfEList es
  | .newObj c es => wfName c && wfEList es

/-- Well-formed access chains rooted in an identifier or `new`-object. -/
def wfChainE : Expr → Bool
  | .ident s => wfName s
  | .newObj c es => wfName c && wfEList es
  | .fieldAcc b n => wfFieldName n && wfChainE b
  | .indexAcc b es => wfChainE b && !es.isEmpty && wfEList es
  | .callAcc b es => wfChainE b && wfEList es
  | _ => false

/-- Well-formed expression lists (elementwise). -/
def wfEList : List Expr → Bool
  | [] => true
  | e :: es => wfE e && wfEList es

/-- Well-formed assignment-target/call-statement chains: rooted in a
plain identifier (never an object instantiation). -/
def wfChainT : Expr → Bool
  | .ident s => wfName s
  | .fieldAcc b n => wfFieldName n && wfChainT b
  | .indexAcc b es => wfChainT b && !es.isEmpty && wfEList es
  | .callAcc b es => wfChainT b && wfEList es
  | _ => false

end

def endsInCall : Expr → Bool
  | .callAcc _ _ => true
  | _ => false

/-- Statements whose re-render starts with an identifier token. -/
def identHeadedStmt : Stmt → Bool
  | .varAssign false _ _ => true
  | .callStmt _ => true
  | _ => false

def isSubDecl : Stmt → Bool
  | .funDecl _ _ _ => true
  | .procDecl _ _ _ => true
  | _ => false

def isLitExpr : Expr → Bool
  | .intLit _ => true
  | .numLit _ _ => true
  | .strLit _ => true
  | .boolLit _ => true
  | _ => false

def isBareReturn : Stmt → Bool
  | .returnStmt none => true
  | _ => false

def wfParams (ps : List Param) : Bool := ps.all (fun p => wfName p.name)

def wfOptName : Option String → Bool
  | none => true
  | some p => wfName p

mutual

/-- Well-formed statements, as the parser produces them: targets are
identifier-rooted chains, call statements end in a call, if statements
have at least one branch, switch labels are literals, declaration names
are lexer-shaped. -/
def wfS : Stmt → Bool
  | .varAssign _ t v => wfChainT t && wfE v
  | .arrayDecl _ n dims => wfName n && !dims.isEmpty && wfEList dims
  | .ifStmt branches els => !branches.isEmpty && wfBranches branches && wfOptBlock els
  | .forLoop v e1 e2 b => wfName v && wfE e1 && wfE e2 && wfBlock b
  | .whileLoop c b => wfE c && wfBlock b
  | .doUntil b c => wfBlock b && wfE c
  | .switchStmt s cases dfl => wfE s && wfCases cases && wfOptBlock dfl
  | .funDecl n ps b => wfSubName n && wfParams ps && wfBlock b
  | .procDecl n ps b => wfSubName n && wfParams ps && wfBlock b
  | .classDecl n par ms => wfName n && wfOptName par && wfMembers ms
  | .callStmt e => wfChainT e && endsInCall e
  | .printStmt args => wfEList args
  | .breakInstr => true
  | .continueInstr => true
  | .returnStmt (some e) => wfE e
  | .returnStmt none => true

/-- Well-formed blocks: statements are well-formed, and a bare `return`
is never directly followed by an identifier-headed statement (the
parser would have consumed that identifier as the return value). -/
def wfBlock : List Stmt → Bool
  | [] => true
  | [s] => wfS s
  | s :: s2 :: ss =>
    wfS s && !(isBareReturn s && identHeadedStmt s2) && wfBlock (s2 :: ss)

/-- Well-formed if/elseif branch lists. -/
def wfBranches : List (Expr × List Stmt) → Bool
  | [] => true
  | (c, b) :: rest => wfE c && wfBlock b && wfBranches rest

/-- Well-formed switch-case lists: labels are well-formed literals. -/
def wfCases : List (Expr × List Stmt) → Bool
  | [] => true
  | (l, b) :: rest => isLitExpr l && wfE l && wfBlock b && wfCases rest

def wfOptBlock : Option (List Stmt) → Bool
  | none => true
  | some b => wfBlock b

/-- Well-formed class-member lists: field names are identifiers, nested
members are function/procedure declarations. -/
def wfMembers : List ClassMember → Bool
  | [] => true
  | .fieldMember _ n :: rest => wfName n && wfMembers rest
  | .subMember _ d :: rest => isSubDecl d && wfS d && wfMembers rest

end

end ERL

namespace Editor

/-- `CodeEditor.TEMP_FILENAME`: the fixed temporary filename the editor
persists the buffer to before each run (src/code_editor.py line 10). -/
def TEMP_FILENAME : String := "t.txt"

/-- The externally observable effects the editor triggers on its
collaborators: the filesystem (truncating whole-file write) and the
terminal widget (clear, focus, launching the interpreter process on a
program path plus one positional source-file argument, stopping it). -/
inductive Action where
  | writeFile (path text : String)
  | terminalClear
  | terminalSetFocus
  | terminalRun (program sourceArg : String)
  | terminalStop
deriving DecidableEq, Repr

/-- The editor state the run-button handler reads: the current buffer
text (`self.text_edit.text`) and whether the terminal reports a run in
progress (`self.terminal.is_running`). -/
structure EditorState where
  bufferText : String
  is_running : Bool
deriving DecidableEq, Repr

/-- `CodeEditor.run_code_input` (src/code_editor.py lines 53-58),
embedded as the ordered trace of effects it performs: write the entire
buffer to `TEMP_FILENAME`, clear the terminal, focus it, then launch
the interpreter (`interpreter.__file__`, abstracted as the
`interpreterFile` argument) with the single positional argument
`"t.txt"`. -/
def run_code_input (interpreterFile : String) (st : EditorState) : List Action :=
  [ .writeFile TEMP_FILENAME st.bufferText,
    .terminalClear,
    .terminalSetFocus,
    .terminalRun interpreterFile "t.txt" ]

/-- `CodeEditor.on_run_btn_click` (src/code_editor.py lines 47-51): if
the terminal is not running, start a run; otherwise stop the running
interpreter. -/
def on_run_btn_click (interpreterFile : String) (st : EditorState) : List Action :=
  if !st.is_running then run_code_input interpreterFile st
  else [.terminalStop]

end Editor

namespace ERL

theorem bind_ok_iff {α β : Type} (x : Except String α) (f : α → Except String β) (b : β) :
    (x >>= f) = .ok b ↔ ∃ a, x = .ok a ∧ f a = .ok b := by
  cases x <;> simp [Bind.bind, Except.bind]

theorem parseExprList_ne_nil :
    ∀ fuel ts out, parseExprList fuel ts = .ok out → out.1 ≠ [] := by
  intro fuel ts out h
  cases fuel with
  | zero => simp [parseExprList] at h
  | succ fuel =>
    simp only [parseExprList] at h
    split at h
    · simp only [bind_ok_iff] at h
      obtain ⟨p, hp, h⟩ := h
      obtain ⟨q, hq, h⟩ := h
      cases h
      simp
    · simp at h

theorem parseArrayTail_shape :
    ∀ fuel g ts out, parseArrayTail fuel g ts = .ok out →
      ∃ n dims rest, out = (.arrayDecl g n dims, rest) ∧ dims ≠ [] := by
  intro fuel g ts out h
  cases fuel with
  | zero => simp [parseArrayTail] at h
  | succ fuel =>
    simp only [parseArrayTail] at h
    split at h
    · simp only [bind_ok_iff] at h
      obtain ⟨p, hp, h⟩ := h
      split at h
      · cases h
        exact ⟨_, p.1, _, rfl, parseExprList_ne_nil fuel _ p hp⟩
      · simp at h
    · simp at h
    · simp at h

theorem parseAssignTail_shape :
    ∀ fuel g ts out, parseAssignTail fuel g ts = .ok out →
      ∃ t v, out.1 = .varAssign g t v := by
  intro fuel g ts out h
  cases fuel with
  | zero => simp [parseAssignTail] at h
  | succ fuel =>
    simp only [parseAssignTail] at h
    split at h
    · simp only [bind_ok_iff] at h
      obtain ⟨p, hp, h⟩ := h
      split at h
      · simp only [bind_ok_iff] at h
        obtain ⟨q, hq, h⟩ := h
        cases h
        exact ⟨_, _, rfl⟩
      · simp at h
    · simp at h

theorem parseStmt_ident_shape :
    ∀ fuel s r out, parseStmt (fuel+1) (.ident s :: r) = .ok out →
      (∃ t v, out.1 = .varAssign false t v) ∨ (∃ e, out.1 = .callStmt e) := by
  intro fuel s r out h
  simp only [parseStmt] at h
  simp only [bind_ok_iff] at h
  obtain ⟨p, hp, h⟩ := h
  split at h
  · simp only [bind_ok_iff] at h
    obtain ⟨q, hq, h⟩ := h
    cases h
    exact .inl ⟨_, _, rfl⟩
  · split at h
    · cases h
      exact .inr ⟨_, rfl⟩
    · simp at h

theorem parseStmt_global_ident :
    ∀ fuel s r out, parseStmt (fuel+1) (.kGlobal :: .ident s :: r) = .ok out →
      parseAssignTail fuel true (.ident s :: r) = .ok out := by
  intro fuel s r out h
  simpa only [parseStmt] using h

theorem parseParamsCont_head :
    ∀ fuel p ts out, parseParamsCont fuel p ts = .ok out →
      ∃ ps rest, out = (p :: ps, rest) := by
  intro fuel p ts out h
  cases fuel with
  | zero => simp [parseParamsCont] at h
  | succ fuel =>
    simp only [parseParamsCont] at h
    split at h
    · simp only [bind_ok_iff] at h
      obtain ⟨q, hq, h⟩ := h
      cases h
      exact ⟨_, _, rfl⟩
    · cases h
      exact ⟨_, _, rfl⟩

theorem parseParamsNE_no_annot :
    ∀ fuel n r, r.head? ≠ some Tok.colon →
      parseParamsNE (fuel+1) (.ident n :: r) = parseParamsCont fuel ⟨n, false⟩ r := by
  intro fuel n r hr
  rcases r with _ | ⟨t, r⟩
  · rfl
  · cases t <;> first | rfl | exact (hr rfl).elim

set_option maxHeartbeats 1000000 in
theorem scan_blank :
    ∀ cs : List Char, (∀ c ∈ cs, c = ' ' ∨ c = '\t') →
      ∀ fuel, cs.length < fuel → scan fuel cs = .ok [] := by
  intro cs
  induction cs with
  | nil =>
    intro _ fuel hf
    cases fuel with
    | zero => omega
    | succ fuel => rfl
  | cons c cs ih =>
    intro h fuel hf
    cases fuel with
    | zero => omega
    | succ fuel =>
      have htail : scan fuel cs = .ok [] :=
        ih (fun c hmem => h c (List.mem_cons_of_mem _ hmem)) fuel
          (by simpa using Nat.lt_of_succ_lt_succ hf)
      rcases h c (by simp) with h1 | h1 <;> subst h1 <;> exact htail

theorem lexLine_blank :
    ∀ s : String, (∀ c ∈ s.data, c = ' ' ∨ c = '\t') → lexLine s = .ok [] := by
  intro s h
  exact scan_blank s.data h _ (Nat.lt_succ_self _)

theorem lexLines_blank :
    ∀ lines : List String, (∀ l ∈ lines, ∀ c ∈ l.data, c = ' ' ∨ c = '\t') →
      lexLines lines = .ok [] := by
  intro lines
  induction lines with
  | nil => intro _; rfl
  | cons l ls ih =>
    intro h
    simp only [lexLines]
    rw [lexLine_blank l (h l (by simp)), ih (fun l' hm c hc => h l' (List.mem_cons_of_mem _ hm) c hc)]
    rfl

end ERL

open ERL

/-- Claim C1: when a statement starts with an identifier (optionally
preceded by `global`) followed by a bracketed suffix but without the
`array` keyword, parse treats it as an access-chain assignment target
(or, for a bare chain ending in a call, a call statement), never as an
array declaration; in particular `parse ["global x[3,3]"]` raises a
syntax error because the assignment's `=` is missing. -/
theorem parse_bracket_suffix_is_assignment :
    parse ["global x[3,3]"] = .error "Syntax error: = expected" ∧
    (∀ fuel s r out, parseStmt (fuel+1) (.kGlobal :: .ident s :: r) = .ok out →
      ∃ t v, out.1 = .varAssign true t v) ∧
    (∀ fuel s r out, parseStmt (fuel+1) (.ident s :: .lbrack :: r) = .ok out →
      (∃ t v, out.1 = .varAssign false t v) ∨ (∃ e, out.1 = .callStmt e)) ∧
    (∀ fuel s r out,
      parseStmt (fuel+1) (.kGlobal :: .ident s :: r) = .ok out ∨
      parseStmt (fuel+1) (.ident s :: .lbrack :: r) = .ok out →
      out.1.isArrayDecl = false) := by
  refine ⟨rfl, ?_, ?_, ?_⟩
  · intro fuel s r out h
    exact parseAssignTail_shape fuel true _ out (parseStmt_global_ident fuel s r out h)
  · intro fuel s r out h
    exact parseStmt_ident_shape fuel s _ out h
  · intro fuel s r out h
    rcases h with h | h
    · obtain ⟨t, v, hv⟩ :=
        parseAssignTail_shape fuel true _ out (parseStmt_global_ident fuel s r out h)
      rw [hv]; rfl
    · rcases parseStmt_ident_shape fuel s _ out h with ⟨t, v, hv⟩ | ⟨e, hv⟩ <;> rw [hv] <;> rfl

/-- Witness for C1 at a concrete input: `global x[3] = 4` parses as a
statement that is not an array declaration. -/
theorem parse_bracket_suffix_is_assignment_witness :
    (Stmt.varAssign true (.indexAcc (.ident "x") [.intLit 3]) (.intLit 4)).isArrayDecl = false :=
  parse_bracket_suffix_is_assignment.2.2.2 62 "x"
    [Tok.lbrack, Tok.intLit 3, Tok.rbrack, Tok.eq, Tok.intLit 4]
    (Stmt.varAssign true (.indexAcc (.ident "x") [.intLit 3]) (.intLit 4), [])
    (Or.inl rfl)

/-- Claim C2: an array declaration with an empty bracket pair raises the
syntax error "Syntax error: list of expressions expected"; an ArrayDecl
node with an empty dims list is never produced (every successful
expression-list parse is non-empty, and every successful array
declaration carries a non-empty dims list).  In particular
`parse ["global array y[]"]` raises exactly this error. -/
theorem parse_array_decl_empty_dims_error :
    parse ["global array y[]"] = .error "Syntax error: list of expressions expected" ∧
    (∀ fuel ts out, parseExprList fuel ts = .ok out → out.1 ≠ []) ∧
    (∀ fuel g ts out, parseArrayTail fuel g ts = .ok out →
      ∃ n dims rest, out = (.arrayDecl g n dims, rest) ∧ dims ≠ []) :=
  ⟨rfl, parseExprList_ne_nil, parseArrayTail_shape⟩

/-- Witness for C2 at a concrete input: the successful dimension-list
parse of `[1]` is non-empty. -/
theorem parse_array_decl_empty_dims_error_witness :
    (([Expr.intLit 1], ([] : List Tok)) : List Expr × List Tok).1 ≠ [] :=
  parse_array_decl_empty_dims_error.2.1 20 [Tok.intLit 1] ([Expr.intLit 1], []) rfl

/-- Claim C3: for every input line sequence that is empty, consists only
of empty strings, or consists only of whitespace-only strings, parse
returns the absent value (no AST node at all) rather than an empty root
node or an error. -/
theorem parse_blank_lines_absent :
    parse [] = .ok none ∧
    (∀ n, parse (List.replicate n "") = .ok none) ∧
    (∀ lines : List String, (∀ l ∈ lines, ∀ c ∈ l.data, c = ' ' ∨ c = '\t') →
      parse lines = .ok none) := by
  have hmain : ∀ lines : List String, (∀ l ∈ lines, ∀ c ∈ l.data, c = ' ' ∨ c = '\t') →
      parse lines = .ok none := by
    intro lines h
    simp only [parse]
    rw [lexLines_blank lines h]
    rfl
  refine ⟨rfl, ?_, hmain⟩
  intro n
  refine hmain _ ?_
  intro l hl c hc
  rw [List.eq_of_mem_replicate hl] at hc
  simp at hc

/-- Witness for C3 at a concrete input: a one-blank-line, one-space-line
program parses to the absent value. -/
theorem parse_blank_lines_absent_witness :
    parse ["", " "] = .ok none :=
  parse_blank_lines_absent.2.2 ["", " "] (by decide)

/-- Claim C4: multiplicative operators bind tighter than additive ones:
`parse ["x = 3 + 4 * 5"]` yields an assignment whose expression is an
AddOp with left child IntLiteral 3 and right child a MulOp over
IntLiteral 4 and IntLiteral 5. -/
theorem parse_mul_tighter_than_add :
    parse ["x = 3 + 4 * 5"] =
      .ok (some [.varAssign false (.ident "x")
        (.addOp .add (.intLit 3) (.mulOp .mul (.intLit 4) (.intLit 5)))]) := by
  rfl

/-- Claim C5: unary minus binds only to its immediate operand, tighter
than multiplication: `parse ["x = -3 * 5"]` yields a MulOp whose left
child is a unary minus applied to IntLiteral 3 and whose right child is
IntLiteral 5. -/
theorem parse_unary_minus_immediate :
    parse ["x = -3 * 5"] =
      .ok (some [.varAssign false (.ident "x")
        (.mulOp .mul (.unaryMinus (.intLit 3)) (.intLit 5))]) := by
  rfl

/-- Claim C6: field access, indexing, and call suffixes chain freely on
the left of `=`: `parse ["f(a).b = c"]` yields an assignment whose
target is the access chain of the call `f(a)` followed by the field
access `.b`. -/
theorem parse_call_field_chain_target :
    parse ["f(a).b = c"] =
      .ok (some [.varAssign false
        (.fieldAcc (.callAcc (.ident "f") [.ident "a"]) "b") (.ident "c")]) := by
  rfl

/-- Claim C7: in every parsed parameter list, a parameter's `is_byref`
is true exactly when it is annotated `:byRef`; a `:byVal` annotation
and the absence of an annotation both yield false; concretely, the test
function and procedure declarations parse with params
`a:byRef ↦ true`, `b:byVal ↦ false`, `c ↦ false`. -/
theorem parse_param_byref_flag :
    (∀ fuel n r out, parseParamsNE (fuel+1) (.ident n :: .colon :: .kByRef :: r) = .ok out →
      ∃ ps rest, out = (⟨n, true⟩ :: ps, rest)) ∧
    (∀ fuel n r out, parseParamsNE (fuel+1) (.ident n :: .colon :: .kByVal :: r) = .ok out →
      ∃ ps rest, out = (⟨n, false⟩ :: ps, rest)) ∧
    (∀ fuel n r out, r.head? ≠ some Tok.colon →
      parseParamsNE (fuel+1) (.ident n :: r) = .ok out →
      ∃ ps rest, out = (⟨n, false⟩ :: ps, rest)) ∧
    parse ["function f(a:byRef, b:byVal, c)", "    return a * b * c", "endfunction"] =
      .ok (some [.funDecl "f" [⟨"a", true⟩, ⟨"b", false⟩, ⟨"c", false⟩]
        [.returnStmt (some (.mulOp .mul (.mulOp .mul (.ident "a") (.ident "b")) (.ident "c")))]]) ∧
    parse ["procedure sum(a:byRef, b:byVal, c)", "    global result = a + b + c",
           "    return", "endprocedure"] =
      .ok (some [.procDecl "sum" [⟨"a", true⟩, ⟨"b", false⟩, ⟨"c", false⟩]
        [.varAssign true (.ident "result")
          (.addOp .add (.addOp .add (.ident "a") (.ident "b")) (.ident "c")),
         .returnStmt none]]) := by
  refine ⟨?_, ?_, ?_, rfl, rfl⟩
  · intro fuel n r out h
    exact parseParamsCont_head fuel ⟨n, true⟩ r out h
  · intro fuel n r out h
    exact parseParamsCont_head fuel ⟨n, false⟩ r out h
  · intro fuel n r out hr h
    rw [parseParamsNE_no_annot fuel n r hr] at h
    exact parseParamsCont_head fuel ⟨n, false⟩ r out h

/-- Witness for C7 at a concrete input: parsing the single parameter
`a:byRef` yields a head parameter with `is_byref = true`. -/
theorem parse_param_byref_flag_witness :
    ∃ ps rest, (([⟨"a", true⟩], ([] : List Tok)) : List Param × List Tok) = (⟨"a", true⟩ :: ps, rest) :=
  parse_param_byref_flag.1 4 "a" [] ([⟨"a", true⟩], []) rfl

/-- Claim C9: every run started from the editor first writes the entire
current buffer text to the fixed temporary filename `TEMP_FILENAME`
("t.txt"), and only afterwards launches the interpreter process,
passing it exactly that same path as its single positional source-file
argument: in the effect trace of `run_code_input`, the buffer write is
the first action, the (unique) interpreter launch comes after it, and
the launch's source argument equals `TEMP_FILENAME`. -/
theorem editor_write_before_launch :
    ∀ interpreterFile st,
      (Editor.run_code_input interpreterFile st).get? 0 =
        some (.writeFile Editor.TEMP_FILENAME st.bufferText) ∧
      (Editor.run_code_input interpreterFile st).get? 3 =
        some (.terminalRun interpreterFile Editor.TEMP_FILENAME) ∧
      (∀ k a b, (Editor.run_code_input interpreterFile st).get? k =
          some (.terminalRun a b) →
        k = 3 ∧ a = interpreterFile ∧ b = Editor.TEMP_FILENAME) ∧
      (∀ k p t, (Editor.run_code_input interpreterFile st).get? k =
          some (.writeFile p t) →
        k = 0 ∧ p = Editor.TEMP_FILENAME ∧ t = st.bufferText) := by
  intro interpreterFile st
  refine ⟨rfl, rfl, ?_, ?_⟩
  · intro k a b h
    match k with
    | 0 => simp [Editor.run_code_input] at h
    | 1 => simp [Editor.run_code_input] at h
    | 2 => simp [Editor.run_code_input] at h
    | 3 =>
      simp [Editor.run_code_input] at h
      exact ⟨rfl, h.1.symm, h.2.symm⟩
    | k + 4 => simp [Editor.run_code_input] at h
  · intro k p t h
    match k with
    | 0 =>
      simp [Editor.run_code_input] at h
      exact ⟨rfl, h.1.symm, h.2.symm⟩
    | 1 => simp [Editor.run_code_input] at h
    | 2 => simp [Editor.run_code_input] at h
    | 3 => simp [Editor.run_code_input] at h
    | k + 4 => simp [Editor.run_code_input] at h

/-- Witness for C9 at a concrete input: the launch action sits at index
3 of the trace, with the fixed temporary filename as its argument. -/
theorem editor_write_before_launch_witness :
    3 = 3 ∧ "interp.py" = "interp.py" ∧ "t.txt" = Editor.TEMP_FILENAME :=
  (editor_write_before_launch "interp.py" ⟨"x = 1", false⟩).2.2.1 3 "interp.py" "t.txt" rfl

/-- Claim C10: the editor never starts a second interpreter run while
one is in progress: when the terminal reports `is_running`, a click of
the run button only stops the running interpreter (its trace contains
neither a buffer write nor a process launch), and a run (write + launch)
occurs only when `is_running` is false. -/
theorem editor_single_run_guard :
    ∀ interpreterFile st,
      (st.is_running = true →
        Editor.on_run_btn_click interpreterFile st = [.terminalStop]) ∧
      (st.is_running = false →
        Editor.on_run_btn_click interpreterFile st =
          Editor.run_code_input interpreterFile st) ∧
      (∀ a b, Editor.Action.terminalRun a b ∈
          Editor.on_run_btn_click interpreterFile st → st.is_running = false) ∧
      (∀ p t, Editor.Action.writeFile p t ∈
          Editor.on_run_btn_click interpreterFile st → st.is_running = false) := by
  intro interpreterFile st
  cases hrun : st.is_running <;>
    simp [Editor.on_run_btn_click, Editor.run_code_input, hrun]

/-- Witness for C10 at a concrete state: with the terminal running, a
click produces only the stop action. -/
theorem editor_single_run_guard_witness :
    Editor.on_run_btn_click "interp.py" ⟨"x = 1", true⟩ = [.terminalStop] :=
  (editor_single_run_guard "interp.py" ⟨"x = 1", true⟩).1 rfl
